import Mathlib

/-!
Shallow embedding of the Muhimmath-Library-2025 storage and circulation layer.

The source of truth is the repository's TypeScript code:
* `shared/schema.ts` — the entity shapes (Drizzle table definitions and the
  zod insert schemas derived from them);
* the `MemStorage` class (in-memory `Map`-backed implementation of
  `IStorage`), embedded here with explicit state passing;
* the `DatabaseStorage` class where its behaviour differs from `MemStorage`
  (circulation-record status on creation, SQL `LIKE` search);
* `registerRoutes` (the Express route table) for the HTTP layer;
* the admin `CirculationTab` component's `issueBook` / `returnBook`
  mutations, which define the documented issue/return flows.

Timestamps (`Date` values) are modelled as `Nat` milliseconds since the
epoch, with the current time passed explicitly wherever the source calls
`new Date()`.  JavaScript `Map`s are modelled as association lists in key
insertion order (`Map.set` on an existing key keeps its position, which is
what `Array.from(map.values())` and `for … of` iteration observe).
-/

/-- `Book` row of `shared/schema.ts` (`books` table). -/
structure Book where
  id : Nat
  title : String
  author : String
  category : String
  language : String
  price : Int
  publisher : String
  ddc : String
  coverImage : Option String
  status : String
  createdAt : Nat
deriving DecidableEq, Repr

/-- `InsertBook` — `insertBookSchema` omits `id`, `createdAt` and `status`. -/
structure InsertBook where
  title : String
  author : String
  category : String
  language : String
  price : Int
  publisher : String
  ddc : String
  coverImage : Option String
deriving DecidableEq, Repr

/-- `Member` row of `shared/schema.ts` (`members` table). -/
structure Member where
  id : Nat
  fullName : String
  «class» : String
  registrationNo : String
  createdAt : Nat
deriving DecidableEq, Repr

/-- `InsertMember` — `insertMemberSchema` omits `id` and `createdAt`. -/
structure InsertMember where
  fullName : String
  «class» : String
  registrationNo : String
deriving DecidableEq, Repr

/-- `Category` row of `shared/schema.ts` (`categories` table). -/
structure Category where
  id : Nat
  name : String
  createdAt : Nat
deriving DecidableEq, Repr

/-- `InsertCategory` — `insertCategorySchema` omits `id` and `createdAt`. -/
structure InsertCategory where
  name : String
deriving DecidableEq, Repr

/-- `BookSuggestion` row of `shared/schema.ts` (`book_suggestions` table). -/
structure BookSuggestion where
  id : Nat
  memberId : Nat
  bookTitle : String
  author : String
  reason : Option String
  status : String
  createdAt : Nat
deriving DecidableEq, Repr

/-- `BookReview` row of `shared/schema.ts` (`book_reviews` table). -/
structure BookReview where
  id : Nat
  bookId : Nat
  memberId : Nat
  rating : Nat
  review : String
  createdAt : Nat
deriving DecidableEq, Repr

/-- `InsertBookReview` — `insertBookReviewSchema` omits `id` and `createdAt`
(and nothing else: in particular `rating` is kept with no range refinement). -/
structure InsertBookReview where
  bookId : Nat
  memberId : Nat
  rating : Nat
  review : String
deriving DecidableEq, Repr

/-- `Circulation` row of `shared/schema.ts` (`circulation` table). -/
structure Circulation where
  id : Nat
  bookId : Nat
  memberId : Nat
  action : String
  date : Nat
  dueDate : Option Nat
  returnDate : Option Nat
  status : String
deriving DecidableEq, Repr

/-- `InsertCirculation` — `insertCirculationSchema` omits `id`, `date` and
`status`; `dueDate` and `returnDate` remain (nullable). -/
structure InsertCirculation where
  bookId : Nat
  memberId : Nat
  action : String
  dueDate : Option Nat
  returnDate : Option Nat
deriving DecidableEq, Repr

/-! ### JavaScript `Map` model: association lists in insertion order -/

/-- `Map.prototype.get`. -/
def mapGet (k : Nat) : List (Nat × α) → Option α
  | [] => none
  | (k', v) :: rest => if k' = k then some v else mapGet k rest

/-- `Map.prototype.set`: overwrite in place if the key exists (keeping its
insertion position), else append. -/
def mapSet (k : Nat) (v : α) : List (Nat × α) → List (Nat × α)
  | [] => [(k, v)]
  | (k', v') :: rest => if k' = k then (k, v) :: rest else (k', v') :: mapSet k v rest

/-- The removal part of `Map.prototype.delete`. -/
def mapDel (k : Nat) : List (Nat × α) → List (Nat × α)
  | [] => []
  | (k', v) :: rest => if k' = k then rest else (k', v) :: mapDel k rest

/-- `Array.from(map.values())`. -/
def mapValues (m : List (Nat × α)) : List α :=
  m.map Prod.snd

/-! ### Strings: `toLowerCase().includes(...)` -/

/-- `needle` occurs as a prefix of `hay` (character lists). -/
def chPre : List Char → List Char → Bool
  | [], _ => true
  | _ :: _, [] => false
  | a :: as, b :: bs => a == b && chPre as bs

/-- `needle` occurs as a contiguous substring of `hay` (character lists). -/
def chSub (needle : List Char) : List Char → Bool
  | [] => needle.isEmpty
  | b :: bs => chPre needle (b :: bs) || chSub needle bs

/-- `hay.includes(needle)` of JavaScript strings. -/
def strIncl (hay needle : String) : Bool :=
  chSub needle.data hay.data

/-- `s.toLowerCase()` of JavaScript strings: lowercase every character. -/
def strToLower (s : String) : String :=
  ⟨s.data.map Char.toLower⟩

/-! ### The store -/

/-- State of `MemStorage`: six `Map`s plus the shared `currentId` counter. -/
structure MemStorage where
  books : List (Nat × Book)
  members : List (Nat × Member)
  categories : List (Nat × Category)
  bookSuggestions : List (Nat × BookSuggestion)
  bookReviews : List (Nat × BookReview)
  circulation : List (Nat × Circulation)
  currentId : Nat
deriving DecidableEq, Repr

/-- A fresh `MemStorage` (all maps empty, `currentId = 1`). -/
def emptyStorage : MemStorage :=
  { books := [], members := [], categories := [], bookSuggestions := []
    bookReviews := [], circulation := [], currentId := 1 }

/-- `MemStorage.createBook`: assigns `id := currentId++`, forces
`status := "available"`, stamps `createdAt`. -/
def createBook (book : InsertBook) (now : Nat) (s : MemStorage) : Book × MemStorage :=
  let id := s.currentId
  let newBook : Book :=
    { id, title := book.title, author := book.author, category := book.category
      language := book.language, price := book.price, publisher := book.publisher
      ddc := book.ddc, coverImage := book.coverImage
      status := "available", createdAt := now }
  (newBook, { s with books := mapSet id newBook s.books, currentId := s.currentId + 1 })

/-- `Partial<Book>` — the `updates` object of `MemStorage.updateBook`;
a present field overrides the stored one (`{ ...book, ...updates }`). -/
structure BookPatch where
  id : Option Nat := none
  title : Option String := none
  author : Option String := none
  category : Option String := none
  language : Option String := none
  price : Option Int := none
  publisher : Option String := none
  ddc : Option String := none
  coverImage : Option (Option String) := none
  status : Option String := none
  createdAt : Option Nat := none
deriving DecidableEq, Repr

/-- `{ ...book, ...updates }`. -/
def applyBookPatch (p : BookPatch) (b : Book) : Book :=
  { id := p.id.getD b.id, title := p.title.getD b.title
    author := p.author.getD b.author, category := p.category.getD b.category
    language := p.language.getD b.language, price := p.price.getD b.price
    publisher := p.publisher.getD b.publisher, ddc := p.ddc.getD b.ddc
    coverImage := p.coverImage.getD b.coverImage, status := p.status.getD b.status
    createdAt := p.createdAt.getD b.createdAt }

/-- `MemStorage.updateBook`: `undefined` and no state change on unknown id. -/
def updateBook (id : Nat) (updates : BookPatch) (s : MemStorage) :
    Option Book × MemStorage :=
  match mapGet id s.books with
  | none => (none, s)
  | some book =>
      let updatedBook := applyBookPatch updates book
      (some updatedBook, { s with books := mapSet id updatedBook s.books })

/-- `MemStorage.deleteBook`: returns whether the key existed and removes it. -/
def deleteBook (id : Nat) (s : MemStorage) : Bool × MemStorage :=
  ((mapGet id s.books).isSome, { s with books := mapDel id s.books })

/-- `MemStorage.searchBooks`: case-insensitive substring match on
title / author / category. -/
def searchBooks (query : String) (s : MemStorage) : List Book :=
  let lowerQuery := strToLower query
  (mapValues s.books).filter fun book =>
    strIncl (strToLower book.title) lowerQuery ||
    strIncl (strToLower book.author) lowerQuery ||
    strIncl (strToLower book.category) lowerQuery

/-- `MemStorage.createMember`: assigns `id := currentId++`, stamps
`createdAt`; performs no `registrationNo` uniqueness check. -/
def createMember (member : InsertMember) (now : Nat) (s : MemStorage) :
    Member × MemStorage :=
  let id := s.currentId
  let newMember : Member :=
    { id, fullName := member.fullName, «class» := member.«class»
      registrationNo := member.registrationNo, createdAt := now }
  (newMember, { s with members := mapSet id newMember s.members, currentId := s.currentId + 1 })

/-- `MemStorage.searchMembers`: case-insensitive substring match on
fullName / class / registrationNo. -/
def searchMembers (query : String) (s : MemStorage) : List Member :=
  let lowerQuery := strToLower query
  (mapValues s.members).filter fun member =>
    strIncl (strToLower member.fullName) lowerQuery ||
    strIncl (strToLower member.«class») lowerQuery ||
    strIncl (strToLower member.registrationNo) lowerQuery

/-- `MemStorage.createCategory`: assigns `id := currentId++`, stamps
`createdAt`; performs no name uniqueness check. -/
def createCategory (category : InsertCategory) (now : Nat) (s : MemStorage) :
    Category × MemStorage :=
  let id := s.currentId
  let newCategory : Category := { id, name := category.name, createdAt := now }
  (newCategory, { s with categories := mapSet id newCategory s.categories, currentId := s.currentId + 1 })

/-- `MemStorage.createBookReview`: assigns `id := currentId++`, stamps
`createdAt`; stores the rating exactly as given. -/
def createBookReview (review : InsertBookReview) (now : Nat) (s : MemStorage) :
    BookReview × MemStorage :=
  let id := s.currentId
  let newReview : BookReview :=
    { id, bookId := review.bookId, memberId := review.memberId
      rating := review.rating, review := review.review, createdAt := now }
  (newReview, { s with bookReviews := mapSet id newReview s.bookReviews, currentId := s.currentId + 1 })

/-- `MemStorage.createCirculationRecord`: assigns `id := currentId++`,
stamps `date`, and sets `status := "active"` unconditionally — also for
`action = "return"` records.  (`DatabaseStorage.createCirculationRecord`
instead uses `action === "return" ? "returned" : "active"`.) -/
def createCirculationRecord (c : InsertCirculation) (now : Nat) (s : MemStorage) :
    Circulation × MemStorage :=
  let id := s.currentId
  let newCirculation : Circulation :=
    { id, bookId := c.bookId, memberId := c.memberId, action := c.action
      date := now, dueDate := c.dueDate, returnDate := c.returnDate
      status := "active" }
  (newCirculation, { s with circulation := mapSet id newCirculation s.circulation, currentId := s.currentId + 1 })

/-- `Partial<Circulation>` — the `updates` object of
`MemStorage.updateCirculationRecord`. -/
structure CirculationPatch where
  id : Option Nat := none
  bookId : Option Nat := none
  memberId : Option Nat := none
  action : Option String := none
  date : Option Nat := none
  dueDate : Option (Option Nat) := none
  returnDate : Option (Option Nat) := none
  status : Option String := none
deriving DecidableEq, Repr

/-- `{ ...record, ...updates }`. -/
def applyCirculationPatch (p : CirculationPatch) (c : Circulation) : Circulation :=
  { id := p.id.getD c.id, bookId := p.bookId.getD c.bookId
    memberId := p.memberId.getD c.memberId, action := p.action.getD c.action
    date := p.date.getD c.date, dueDate := p.dueDate.getD c.dueDate
    returnDate := p.returnDate.getD c.returnDate, status := p.status.getD c.status }

/-- `MemStorage.updateCirculationRecord`. -/
def updateCirculationRecord (id : Nat) (updates : CirculationPatch) (s : MemStorage) :
    Option Circulation × MemStorage :=
  match mapGet id s.circulation with
  | none => (none, s)
  | some record =>
      let updatedRecord := applyCirculationPatch updates record
      (some updatedRecord, { s with circulation := mapSet id updatedRecord s.circulation })

/-- `MemStorage.getActiveCirculation`: the records with `status === "active"`. -/
def getActiveCirculation (s : MemStorage) : List Circulation :=
  (mapValues s.circulation).filter fun c => c.status == "active"

/-- `MemStorage.getOverdueCirculation`: `status === "active" && c.dueDate &&
new Date(c.dueDate) < now` — a read-only filter over the circulation map. -/
def getOverdueCirculation (now : Nat) (s : MemStorage) : List Circulation :=
  (mapValues s.circulation).filter fun c =>
    c.status == "active" &&
    (match c.dueDate with
     | some d => decide (d < now)
     | none => false)

/-! ### Analytics (`MemStorage.getMostReadBooks` and friends) -/

/-- One step of the borrow-count accumulation:
`if (record.action === "borrow") counts.set(key(record), (counts.get(key(record)) || 0) + 1)`.
Instantiated with `key := bookId` for `getMostReadBooks` and
`key := memberId` for `getMostActiveReaders`. -/
def countsStep (key : Circulation → Nat) (m : List (Nat × Nat)) (r : Circulation) :
    List (Nat × Nat) :=
  if r.action == "borrow" then mapSet (key r) ((mapGet (key r) m).getD 0 + 1) m else m

/-- The borrow-count `Map` after the `forEach` over all circulation values. -/
def borrowCountsBy (key : Circulation → Nat) (cs : List Circulation) :
    List (Nat × Nat) :=
  cs.foldl (countsStep key) []

/-- Number of circulation records that are borrows of key `k`
(under the given key extractor). -/
def borrowCount (key : Circulation → Nat) (k : Nat) (cs : List Circulation) : Nat :=
  cs.countP fun r => r.action == "borrow" && key r == k

/-- The comparator `(a, b) => b.borrowCount - a.borrowCount` applied through a
stable sort (JavaScript `Array.prototype.sort` is stable): insert before the
first strictly smaller count. -/
def insertCountDesc (x : α × Nat) : List (α × Nat) → List (α × Nat)
  | [] => [x]
  | y :: ys => if y.2 < x.2 then x :: y :: ys else y :: insertCountDesc x ys

/-- Stable sort by descending count. -/
def sortCountDesc : List (α × Nat) → List (α × Nat)
  | [] => []
  | x :: xs => insertCountDesc x (sortCountDesc xs)

/-- `MemStorage.getMostReadBooks`: count `action === "borrow"` records per
`bookId`, join each count with the stored book (skipping counts whose book is
missing from the map), sort descending by count. -/
def getMostReadBooks (s : MemStorage) : List (Book × Nat) :=
  sortCountDesc <|
    (borrowCountsBy (fun r => r.bookId) (mapValues s.circulation)).filterMap
      fun p => (mapGet p.1 s.books).map fun b => (b, p.2)

/-- `MemStorage.getMostActiveReaders`: the same per `memberId`, joined with
the stored member. -/
def getMostActiveReaders (s : MemStorage) : List (Member × Nat) :=
  sortCountDesc <|
    (borrowCountsBy (fun r => r.memberId) (mapValues s.circulation)).filterMap
      fun p => (mapGet p.1 s.members).map fun m => (m, p.2)

/-- `MemStorage.getIssuedBooks`: active circulation records joined with their
book and member, skipping records whose book or member is missing. -/
def getIssuedBooks (s : MemStorage) : List (Book × Member × Option Nat) :=
  (getActiveCirculation s).filterMap fun record =>
    match mapGet record.bookId s.books, mapGet record.memberId s.members with
    | some book, some member => some (book, member, record.dueDate)
    | _, _ => none

/-! ### `DatabaseStorage` search: SQL `LIKE` against a lowercased pattern -/

/-- Fuelled SQL `LIKE` pattern matcher over character lists (`%` matches any
sequence, `_` any single character, other characters match case-sensitively).
Each step shortens the pattern or the subject, so fuel
`pattern.length + subject.length + 1` is always sufficient. -/
def likeMatchF : Nat → List Char → List Char → Bool
  | 0, _, _ => false
  | _ + 1, [], cs => cs.isEmpty
  | fuel + 1, p :: ps, cs =>
    if p == '%' then
      likeMatchF fuel ps cs ||
        (match cs with
         | [] => false
         | _ :: cs' => likeMatchF fuel (p :: ps) cs')
    else
      match cs with
      | [] => false
      | c :: cs' => (p == '_' || p == c) && likeMatchF fuel ps cs'

/-- SQL `col LIKE pattern` (case-sensitive, as in PostgreSQL). -/
def sqlLike (pattern subject : String) : Bool :=
  likeMatchF (pattern.data.length + subject.data.length + 1) pattern.data subject.data

/-- `DatabaseStorage.searchMembers` over the `members` table rows: the query
is lowercased and wrapped in `%…%`, but matched with case-sensitive `LIKE`
against the raw column values. -/
def dbSearchMembers (query : String) (rows : List Member) : List Member :=
  let lowerQuery := "%" ++ strToLower query ++ "%"
  rows.filter fun m =>
    sqlLike lowerQuery m.fullName ||
    sqlLike lowerQuery m.«class» ||
    sqlLike lowerQuery m.registrationNo

/-- `DatabaseStorage.searchBooks` over the `books` table rows. -/
def dbSearchBooks (query : String) (rows : List Book) : List Book :=
  let lowerQuery := "%" ++ strToLower query ++ "%"
  rows.filter fun b =>
    sqlLike lowerQuery b.title ||
    sqlLike lowerQuery b.author ||
    sqlLike lowerQuery b.category

/-! ### The HTTP layer (`registerRoutes`) -/

/-- Outcome of a dispatched request, at the granularity the claims need. -/
inductive RouteOutcome where
  | ok
  | created
  | noContent
  | badRequest
  | notFound
  | noRoute
deriving DecidableEq, Repr

/-- JSON leaf values, as far as the zod insert schemas inspect them.
Numbers are modelled as the nonnegative integers the application sends. -/
inductive Jv where
  | num (n : Nat)
  | str (s : String)
  | nul
deriving DecidableEq, Repr

/-- The field checks `insertBookReviewSchema.parse` performs on a review
body: `bookId`, `memberId`, `rating` must be numbers and `review` a string.
There is no range refinement on `rating` (the `// 1-5` comment in
`shared/schema.ts` is not enforced). -/
def insertBookReviewParse (bookId memberId rating review : Jv) :
    Option InsertBookReview :=
  match bookId, memberId, rating, review with
  | .num b, .num m, .num r, .str t =>
      some { bookId := b, memberId := m, rating := r, review := t }
  | _, _, _, _ => none

/-- `POST /api/book-reviews`: parse with `insertBookReviewSchema`; on zod
failure answer 400 and store nothing, otherwise `createBookReview`. -/
def postBookReviewRoute (bookId memberId rating review : Jv) (now : Nat)
    (s : MemStorage) : RouteOutcome × Option BookReview × MemStorage :=
  match insertBookReviewParse bookId memberId rating review with
  | none => (.badRequest, none, s)
  | some data =>
      let (r, s') := createBookReview data now s
      (.created, some r, s')

/-- A `POST /api/books` body as the route sees it after JSON decoding: the
declared insert fields plus a possible caller-supplied `status` key (which
`insertBookSchema` omits, so zod strips it). -/
structure RawBookBody where
  title : String
  author : String
  category : String
  language : String
  price : Int
  publisher : String
  ddc : String
  coverImage : Option String
  status : Option String
deriving DecidableEq, Repr

/-- `insertBookSchema.parse` on a well-typed body: keeps the declared fields
and drops the omitted `status` key. -/
def insertBookParse (b : RawBookBody) : InsertBook :=
  { title := b.title, author := b.author, category := b.category
    language := b.language, price := b.price, publisher := b.publisher
    ddc := b.ddc, coverImage := b.coverImage }

/-- `PUT /api/books/:id`: `req.body` is passed to `updateBook` unvalidated;
`undefined` becomes a 404, otherwise 200. -/
def putBookRoute (id : Nat) (updates : BookPatch) (s : MemStorage) :
    RouteOutcome × MemStorage :=
  match updateBook id updates s with
  | (none, s') => (.notFound, s')
  | (some _, s') => (.ok, s')

/-- `DELETE /api/books/:id`: `false` becomes a 404, otherwise 204. -/
def deleteBookRoute (id : Nat) (s : MemStorage) : RouteOutcome × MemStorage :=
  match deleteBook id s with
  | (false, s') => (.notFound, s')
  | (true, s') => (.noContent, s')

/-- The requests the admin `CirculationTab` mutations issue against the API. -/
inductive ApiReq where
  | postCirculation (body : InsertCirculation)
  | putCirculation (id : Nat) (updates : CirculationPatch)
  | putBook (id : Nat) (updates : BookPatch)
deriving Repr

/-- Dispatch of one request through `registerRoutes`.  `registerRoutes`
defines `POST /api/circulation` and `PUT /api/books/:id`, but registers no
handler at all for `PUT /api/circulation/:id`, so that request never reaches
the storage layer and the store is left unchanged. -/
def dispatch (req : ApiReq) (now : Nat) (s : MemStorage) :
    RouteOutcome × MemStorage :=
  match req with
  | .postCirculation body =>
      let (_, s') := createCirculationRecord body now s
      (.created, s')
  | .putCirculation _ _ => (.noRoute, s)
  | .putBook id updates => putBookRoute id updates s

/-- Dispatch of a request list, all at the same wall-clock time. -/
def dispatchAll (reqs : List ApiReq) (now : Nat) (s : MemStorage) : MemStorage :=
  reqs.foldl (fun st r => (dispatch r now st).2) s

/-- The milliseconds in 14 days (`dueDate.setDate(dueDate.getDate() + 14)`). -/
def fourteenDays : Nat := 14 * 86400000

/-- The three requests of `CirculationTab.issueBook`:
`POST /api/circulation` with `{bookId, memberId, action: "borrow"}`, then
`PUT /api/circulation/:id` with the computed due date, then
`PUT /api/books/:id` with `{status: "issued"}`.  `cid` is the id of the
record the POST created. -/
def issueFlowRequests (bookId memberId cid now : Nat) : List ApiReq :=
  [ .postCirculation
      { bookId, memberId, action := "borrow", dueDate := none, returnDate := none }
  , .putCirculation cid { dueDate := some (some (now + fourteenDays)) }
  , .putBook bookId { status := some "issued" } ]

/-! ### Lemmas about the `Map` model -/

theorem mapGet_mapSet (k k' : Nat) (v : α) (m : List (Nat × α)) :
    mapGet k' (mapSet k v m) = if k = k' then some v else mapGet k' m := by
  induction m with
  | nil =>
      by_cases h : k = k' <;> simp [mapGet, mapSet, h]
  | cons hd tl ih =>
      obtain ⟨k₀, v₀⟩ := hd
      simp only [mapSet]
      by_cases h₀ : k₀ = k
      · simp only [if_pos h₀]
        subst h₀
        by_cases h₁ : k₀ = k' <;> simp [mapGet, h₁]
      · simp only [if_neg h₀]
        by_cases h₁ : k₀ = k'
        · have hkk : ¬ k = k' := fun h => h₀ (h₁.trans h.symm)
          simp [mapGet, h₁, hkk]
        · simp [mapGet, h₁, ih]

theorem mapGet_mem {k : Nat} {v : α} {m : List (Nat × α)} :
    mapGet k m = some v → (k, v) ∈ m := by
  induction m with
  | nil => intro h; simp [mapGet] at h
  | cons hd tl ih =>
      obtain ⟨k₀, v₀⟩ := hd
      by_cases h₀ : k₀ = k
      · subst h₀
        intro h
        simp [mapGet] at h
        simp [h]
      · intro h
        simp [mapGet, h₀] at h
        exact List.mem_cons_of_mem _ (ih h)

/-- Keys of the association list are pairwise distinct. -/
def keysNodup (m : List (Nat × α)) : Prop :=
  (m.map Prod.fst).Nodup

theorem mem_mapGet {k : Nat} {v : α} {m : List (Nat × α)} (hn : keysNodup m)
    (hm : (k, v) ∈ m) : mapGet k m = some v := by
  induction m with
  | nil => simp at hm
  | cons hd tl ih =>
      obtain ⟨k₀, v₀⟩ := hd
      rcases List.mem_cons.mp hm with h | h
      · obtain ⟨hk, hv⟩ := Prod.mk.injEq .. ▸ h
        simp [mapGet, hk.symm, hv]
      · have hk₀ : k₀ ≠ k := by
          intro hkk
          subst hkk
          have : k₀ ∈ tl.map Prod.fst := List.mem_map.mpr ⟨(k₀, v), h, rfl⟩
          exact (List.nodup_cons.mp hn).1 this
        have hn' : keysNodup tl := (List.nodup_cons.mp hn).2
        simp [mapGet, hk₀, ih hn' h]

theorem keys_mapSet (k : Nat) (v : α) (m : List (Nat × α)) (k' : Nat) :
    k' ∈ (mapSet k v m).map Prod.fst ↔ k' ∈ m.map Prod.fst ∨ k' = k := by
  induction m with
  | nil => simp [mapSet]
  | cons hd tl ih =>
      obtain ⟨k₀, v₀⟩ := hd
      by_cases h₀ : k₀ = k
      · subst h₀
        have hset : mapSet k₀ v ((k₀, v₀) :: tl) = (k₀, v) :: tl := by
          simp [mapSet]
        rw [hset]
        simp only [List.map_cons, List.mem_cons]
        tauto
      · have hset : mapSet k v ((k₀, v₀) :: tl) = (k₀, v₀) :: mapSet k v tl := by
          simp [mapSet, h₀]
        rw [hset]
        simp only [List.map_cons, List.mem_cons, ih]
        tauto

theorem keysNodup_mapSet (k : Nat) (v : α) {m : List (Nat × α)}
    (hn : keysNodup m) : keysNodup (mapSet k v m) := by
  induction m with
  | nil => simp [keysNodup, mapSet]
  | cons hd tl ih =>
      obtain ⟨k₀, v₀⟩ := hd
      have hn' : (k₀ :: tl.map Prod.fst).Nodup := hn
      obtain ⟨hh, ht⟩ := List.nodup_cons.mp hn'
      by_cases h₀ : k₀ = k
      · subst h₀
        show ((mapSet k₀ v ((k₀, v₀) :: tl)).map Prod.fst).Nodup
        have hset : mapSet k₀ v ((k₀, v₀) :: tl) = (k₀, v) :: tl := by
          simp [mapSet]
        rw [hset, List.map_cons]
        exact List.nodup_cons.mpr ⟨hh, ht⟩
      · show ((mapSet k v ((k₀, v₀) :: tl)).map Prod.fst).Nodup
        have hset : mapSet k v ((k₀, v₀) :: tl) = (k₀, v₀) :: mapSet k v tl := by
          simp [mapSet, h₀]
        rw [hset, List.map_cons]
        refine List.nodup_cons.mpr ⟨?_, ih ht⟩
        intro hmem
        rcases (keys_mapSet k v tl k₀).mp hmem with h | h
        · exact hh h
        · exact h₀ h

theorem mapDel_of_none {k : Nat} {m : List (Nat × α)}
    (h : mapGet k m = none) : mapDel k m = m := by
  induction m with
  | nil => simp [mapDel]
  | cons hd tl ih =>
      obtain ⟨k₀, v₀⟩ := hd
      by_cases h₀ : k₀ = k
      · subst h₀; simp [mapGet] at h
      · simp [mapGet, h₀] at h
        simp [mapDel, h₀, ih h]

/-! ### Lemmas about the borrow-count fold -/

/-- `counts.get(k) || 0`. -/
def cntD (m : List (Nat × Nat)) (k : Nat) : Nat :=
  (mapGet k m).getD 0

theorem countsStep_getD (key : Circulation → Nat) (r : Circulation)
    (m : List (Nat × Nat)) (k : Nat) :
    cntD (countsStep key m r) k =
      cntD m k + (if (r.action == "borrow" && key r == k) = true then 1 else 0) := by
  unfold countsStep cntD
  by_cases hb : (r.action == "borrow") = true
  · simp only [hb, if_true, Bool.true_and]
    rw [mapGet_mapSet]
    by_cases hk : key r = k
    · subst hk
      simp [cntD]
    · simp [cntD, hk, beq_iff_eq]
  · simp [hb]

theorem countsStep_none (key : Circulation → Nat) (r : Circulation)
    (m : List (Nat × Nat)) (k : Nat) :
    mapGet k (countsStep key m r) = none ↔
      mapGet k m = none ∧ (r.action == "borrow" && key r == k) = false := by
  unfold countsStep
  by_cases hb : (r.action == "borrow") = true
  · simp only [hb, if_true, Bool.true_and]
    rw [mapGet_mapSet]
    by_cases hk : key r = k
    · subst hk
      simp [beq_iff_eq]
    · simp [hk, beq_iff_eq]
  · simp [hb]

theorem foldl_counts_getD (key : Circulation → Nat) :
    ∀ (cs : List Circulation) (m : List (Nat × Nat)) (k : Nat),
      cntD (cs.foldl (countsStep key) m) k = cntD m k + borrowCount key k cs := by
  intro cs
  induction cs with
  | nil => intro m k; simp [borrowCount]
  | cons r cs ih =>
      intro m k
      simp only [List.foldl_cons]
      rw [ih, countsStep_getD]
      unfold borrowCount
      rw [List.countP_cons]
      by_cases hp : (r.action == "borrow" && key r == k) = true <;>
        simp [borrowCount, hp] <;> try omega

theorem foldl_counts_none (key : Circulation → Nat) :
    ∀ (cs : List Circulation) (m : List (Nat × Nat)) (k : Nat),
      mapGet k (cs.foldl (countsStep key) m) = none ↔
        mapGet k m = none ∧ borrowCount key k cs = 0 := by
  intro cs
  induction cs with
  | nil => intro m k; simp [borrowCount]
  | cons r cs ih =>
      intro m k
      simp only [List.foldl_cons]
      rw [ih, countsStep_none]
      unfold borrowCount
      rw [List.countP_cons]
      by_cases hp : (r.action == "borrow" && key r == k) = true <;>
        simp [borrowCount, hp] <;> try omega

theorem borrowCountsBy_getD (key : Circulation → Nat) (cs : List Circulation) (k : Nat) :
    cntD (borrowCountsBy key cs) k = borrowCount key k cs := by
  have h := foldl_counts_getD key cs [] k
  simpa [borrowCountsBy, cntD, mapGet] using h

theorem borrowCountsBy_none (key : Circulation → Nat) (cs : List Circulation) (k : Nat) :
    mapGet k (borrowCountsBy key cs) = none ↔ borrowCount key k cs = 0 := by
  have h := foldl_counts_none key cs [] k
  simpa [borrowCountsBy, mapGet] using h

theorem borrowCountsBy_get_pos (key : Circulation → Nat) (cs : List Circulation)
    (k : Nat) (h : 0 < borrowCount key k cs) :
    mapGet k (borrowCountsBy key cs) = some (borrowCount key k cs) := by
  cases hg : mapGet k (borrowCountsBy key cs) with
  | none =>
      have := (borrowCountsBy_none key cs k).mp hg
      omega
  | some n =>
      have hd := borrowCountsBy_getD key cs k
      rw [cntD, hg] at hd
      have hn : n = borrowCount key k cs := by simpa using hd
      rw [hn]

theorem keysNodup_borrowCountsBy (key : Circulation → Nat) (cs : List Circulation) :
    keysNodup (borrowCountsBy key cs) := by
  have : ∀ (m : List (Nat × Nat)), keysNodup m →
      keysNodup (cs.foldl (countsStep key) m) := by
    induction cs with
    | nil => intro m hm; simpa using hm
    | cons r cs ih =>
        intro m hm
        simp only [List.foldl_cons]
        refine ih _ ?_
        unfold countsStep
        by_cases hb : (r.action == "borrow") = true
        · simp only [hb, if_true]
          exact keysNodup_mapSet _ _ hm
        · simpa [hb] using hm
  exact this [] (by simp [keysNodup])

theorem borrowCountsBy_char (key : Circulation → Nat) (cs : List Circulation)
    (k n : Nat) :
    (k, n) ∈ borrowCountsBy key cs ↔ n = borrowCount key k cs ∧ 0 < n := by
  constructor
  · intro hm
    have hg : mapGet k (borrowCountsBy key cs) = some n :=
      mem_mapGet (keysNodup_borrowCountsBy key cs) hm
    have hd := borrowCountsBy_getD key cs k
    rw [cntD, hg] at hd
    have hn : n = borrowCount key k cs := by simpa using hd
    refine ⟨hn, ?_⟩
    rcases Nat.eq_zero_or_pos n with h0 | h0
    · have hz : borrowCount key k cs = 0 := by omega
      have := (borrowCountsBy_none key cs k).mpr hz
      rw [this] at hg
      cases hg
    · exact h0
  · rintro ⟨rfl, hpos⟩
    exact mapGet_mem (borrowCountsBy_get_pos key cs k hpos)

/-! ### Lemmas about the descending stable sort -/

/-- The output order of `results.sort((a, b) => b.borrowCount - a.borrowCount)`:
adjacent counts are non-increasing. -/
def SortedCountDesc (l : List (α × Nat)) : Prop :=
  List.Chain' (fun a b => b.2 ≤ a.2) l

theorem mem_insertCountDesc (x y : α × Nat) (l : List (α × Nat)) :
    y ∈ insertCountDesc x l ↔ y = x ∨ y ∈ l := by
  induction l with
  | nil => simp [insertCountDesc]
  | cons z zs ih =>
      by_cases h : z.2 < x.2 <;> simp [insertCountDesc, h, ih] <;> try tauto

theorem head?_insertCountDesc (x : α × Nat) (l : List (α × Nat)) :
    (insertCountDesc x l).head? = some x ∨ (insertCountDesc x l).head? = l.head? := by
  cases l with
  | nil => left; rfl
  | cons z zs =>
      by_cases h : z.2 < x.2
      · left; simp [insertCountDesc, h]
      · right; simp [insertCountDesc, h]

theorem sortedCountDesc_insert (x : α × Nat) (l : List (α × Nat))
    (hs : SortedCountDesc l) : SortedCountDesc (insertCountDesc x l) := by
  induction l with
  | nil => simp [insertCountDesc, SortedCountDesc]
  | cons z zs ih =>
      by_cases h : z.2 < x.2
      · have hins : insertCountDesc x (z :: zs) = x :: z :: zs := by
          simp [insertCountDesc, h]
        rw [SortedCountDesc, hins]
        exact List.chain'_cons.mpr ⟨Nat.le_of_lt h, hs⟩
      · have hzx : x.2 ≤ z.2 := Nat.le_of_not_lt h
        have hins : insertCountDesc x (z :: zs) = z :: insertCountDesc x zs := by
          simp [insertCountDesc, h]
        rw [SortedCountDesc, hins]
        have hzs : SortedCountDesc zs := (List.chain'_cons'.mp hs).2
        refine List.chain'_cons'.mpr ⟨?_, ih hzs⟩
        intro b hb
        rcases head?_insertCountDesc x zs with hh | hh
        · rw [hh] at hb
          have hbx : b = x := by simpa using hb.symm
          rw [hbx]
          exact hzx
        · rw [hh] at hb
          exact (List.chain'_cons'.mp hs).1 b hb

theorem sortedCountDesc_sort (l : List (α × Nat)) :
    SortedCountDesc (sortCountDesc l) := by
  induction l with
  | nil => simp [sortCountDesc, SortedCountDesc]
  | cons x xs ih =>
      simp only [sortCountDesc]
      exact sortedCountDesc_insert x _ ih

theorem mem_sortCountDesc (y : α × Nat) (l : List (α × Nat)) :
    y ∈ sortCountDesc l ↔ y ∈ l := by
  induction l with
  | nil => simp [sortCountDesc]
  | cons x xs ih =>
      simp only [sortCountDesc]
      rw [mem_insertCountDesc]
      simp [ih]

/-! ### Characterisations of the analytics queries -/

theorem mem_getMostReadBooks (s : MemStorage) (b : Book) (n : Nat) :
    (b, n) ∈ getMostReadBooks s ↔
      ∃ bid, mapGet bid s.books = some b ∧
        n = borrowCount (fun r => r.bookId) bid (mapValues s.circulation) ∧ 0 < n := by
  unfold getMostReadBooks
  rw [mem_sortCountDesc, List.mem_filterMap]
  constructor
  · rintro ⟨⟨bid, cnt⟩, hmem, hmap⟩
    cases hmb : mapGet bid s.books with
    | none => rw [hmb] at hmap; cases hmap
    | some b' =>
        rw [hmb] at hmap
        simp only [Option.map_some', Option.some.injEq, Prod.mk.injEq] at hmap
        obtain ⟨rfl, rfl⟩ := hmap
        have hchar := (borrowCountsBy_char (fun r => r.bookId)
          (mapValues s.circulation) bid cnt).mp hmem
        exact ⟨bid, hmb, hchar.1, hchar.2⟩
  · rintro ⟨bid, hb, hn, hpos⟩
    refine ⟨(bid, n), ?_, ?_⟩
    · exact (borrowCountsBy_char (fun r => r.bookId)
        (mapValues s.circulation) bid n).mpr ⟨hn, hpos⟩
    · rw [hb]
      rfl

theorem mem_getMostActiveReaders (s : MemStorage) (m : Member) (n : Nat) :
    (m, n) ∈ getMostActiveReaders s ↔
      ∃ mid, mapGet mid s.members = some m ∧
        n = borrowCount (fun r => r.memberId) mid (mapValues s.circulation) ∧ 0 < n := by
  unfold getMostActiveReaders
  rw [mem_sortCountDesc, List.mem_filterMap]
  constructor
  · rintro ⟨⟨mid, cnt⟩, hmem, hmap⟩
    cases hmm : mapGet mid s.members with
    | none => rw [hmm] at hmap; cases hmap
    | some m' =>
        rw [hmm] at hmap
        simp only [Option.map_some', Option.some.injEq, Prod.mk.injEq] at hmap
        obtain ⟨rfl, rfl⟩ := hmap
        have hchar := (borrowCountsBy_char (fun r => r.memberId)
          (mapValues s.circulation) mid cnt).mp hmem
        exact ⟨mid, hmm, hchar.1, hchar.2⟩
  · rintro ⟨mid, hm, hn, hpos⟩
    refine ⟨(mid, n), ?_, ?_⟩
    · exact (borrowCountsBy_char (fun r => r.memberId)
        (mapValues s.circulation) mid n).mpr ⟨hn, hpos⟩
    · rw [hm]
      rfl

theorem mem_getIssuedBooks (s : MemStorage) (b : Book) (m : Member) (d : Option Nat) :
    (b, m, d) ∈ getIssuedBooks s ↔
      ∃ c ∈ getActiveCirculation s,
        mapGet c.bookId s.books = some b ∧
        mapGet c.memberId s.members = some m ∧ d = c.dueDate := by
  unfold getIssuedBooks
  rw [List.mem_filterMap]
  constructor
  · rintro ⟨c, hc, hf⟩
    cases hb : mapGet c.bookId s.books with
    | none => rw [hb] at hf; cases hf
    | some book =>
        cases hm : mapGet c.memberId s.members with
        | none => rw [hb, hm] at hf; cases hf
        | some mem =>
            rw [hb, hm] at hf
            simp only [Option.some.injEq, Prod.mk.injEq] at hf
            obtain ⟨rfl, rfl, rfl⟩ := hf
            exact ⟨c, hc, hb, hm, rfl⟩
  · rintro ⟨c, hc, hb, hm, hd⟩
    refine ⟨c, hc, ?_⟩
    rw [hb, hm, hd]

/-! ### Concrete example data -/

/-- A well-typed book insert payload. -/
def bookInsEx : InsertBook :=
  { title := "T", author := "A", category := "C", language := "en"
    price := 100, publisher := "P", ddc := "000", coverImage := none }

/-- A well-typed member insert payload (registration number `"R1"`). -/
def memberInsEx : InsertMember :=
  { fullName := "M", «class» := "5A", registrationNo := "R1" }

/-- A store holding one book (id 1, status `"available"`) and one member
(id 2), produced by the create operations themselves. -/
def baseStore : MemStorage :=
  (createMember memberInsEx 0 (createBook bookInsEx 0 emptyStorage).2).2

/-- The state after issuing book 1 to member 2 and then returning book 1,
with every storage call of the two `CirculationTab` flows applied directly
(including the `updateCirculationRecord` calls whose HTTP route is missing,
i.e. the reading most favourable to the claim): borrow record, due date,
book → issued; then active record → `"returned"`, `action="return"` record,
book → available. -/
def returnedState : MemStorage :=
  let s1 := (createCirculationRecord
    { bookId := 1, memberId := 2, action := "borrow", dueDate := none, returnDate := none }
    1000 baseStore).2
  let s2 := (updateCirculationRecord 3
    { dueDate := some (some (1000 + fourteenDays)) } s1).2
  let s3 := (updateBook 1 { status := some "issued" } s2).2
  let s4 := (updateCirculationRecord 3 { status := some "returned" } s3).2
  let s5 := (createCirculationRecord
    { bookId := 1, memberId := 2, action := "return", dueDate := none, returnDate := none }
    2000 s4).2
  (updateBook 1 { status := some "available" } s5).2

/-- The state after the three HTTP requests of `CirculationTab.issueBook`
(issue book 1 to member 2 at time 1000) are dispatched through
`registerRoutes`. -/
def issuedViaRoutes : MemStorage :=
  dispatchAll (issueFlowRequests 1 2 3 1000) 1000 baseStore

/-- A member named `"Ali"`. -/
def aliMember : Member :=
  { id := 1, fullName := "Ali", «class» := "5A", registrationNo := "REG7", createdAt := 0 }

/-- A store holding only `aliMember`. -/
def aliStore : MemStorage :=
  { emptyStorage with members := [(1, aliMember)], currentId := 2 }

/-- Creating the same member payload twice. -/
def dupMembersState : MemStorage :=
  (createMember memberInsEx 5 (createMember memberInsEx 5 emptyStorage).2).2

/-- A category insert payload (name `"Fiction"`). -/
def categoryInsEx : InsertCategory := { name := "Fiction" }

/-- Creating the same category payload twice. -/
def dupCategoriesState : MemStorage :=
  (createCategory categoryInsEx 5 (createCategory categoryInsEx 5 emptyStorage).2).2

/-- Books `"BookA"` (id 1) and `"BookB"` (id 2), member id 3, and four
borrow records: three of book 1 and one of book 2. -/
def mostReadExample : MemStorage :=
  let sA := (createBook { bookInsEx with title := "BookA" } 0 emptyStorage).2
  let sB := (createBook { bookInsEx with title := "BookB" } 0 sA).2
  let sM := (createMember memberInsEx 0 sB).2
  let c1 := (createCirculationRecord
    { bookId := 1, memberId := 3, action := "borrow", dueDate := none, returnDate := none } 10 sM).2
  let c2 := (createCirculationRecord
    { bookId := 1, memberId := 3, action := "borrow", dueDate := none, returnDate := none } 20 c1).2
  let c3 := (createCirculationRecord
    { bookId := 2, memberId := 3, action := "borrow", dueDate := none, returnDate := none } 30 c2).2
  (createCirculationRecord
    { bookId := 1, memberId := 3, action := "borrow", dueDate := none, returnDate := none } 40 c3).2

/-- The stored `"BookA"` entity of `mostReadExample`. -/
def bookAEx : Book :=
  { id := 1, title := "BookA", author := "A", category := "C", language := "en"
    price := 100, publisher := "P", ddc := "000", coverImage := none
    status := "available", createdAt := 0 }

/-- A `POST /api/books` body that tries to smuggle in `status: "issued"`. -/
def rawBookBodyEx : RawBookBody :=
  { title := "T", author := "A", category := "C", language := "en"
    price := 100, publisher := "P", ddc := "000", coverImage := none
    status := some "issued" }

/-- The `GET /api/circulation/overdue` handler: it only reads
(`storage.getOverdueCirculation()`) and returns the store as it was. -/
def overdueRouteResult (now : Nat) (s : MemStorage) :
    List Circulation × MemStorage :=
  (getOverdueCirculation now s, s)

/-- Every stored entity id of every collection is below `currentId`. -/
def idsBoundedB (s : MemStorage) : Bool :=
  s.books.all (fun p => decide (p.2.id < s.currentId)) &&
  s.members.all (fun p => decide (p.2.id < s.currentId)) &&
  s.categories.all (fun p => decide (p.2.id < s.currentId)) &&
  s.bookSuggestions.all (fun p => decide (p.2.id < s.currentId)) &&
  s.bookReviews.all (fun p => decide (p.2.id < s.currentId)) &&
  s.circulation.all (fun p => decide (p.2.id < s.currentId))

/-- Each stored book sits under the key equal to its `id` field. -/
def booksWFB (s : MemStorage) : Bool :=
  s.books.all fun p => p.2.id == p.1

/-- Each stored member sits under the key equal to its `id` field. -/
def membersWFB (s : MemStorage) : Bool :=
  s.members.all fun p => p.2.id == p.1

/-! ### The claims -/

/-- C1 (refuted by the code): running the issue flow and then the return
flow on `MemStorage` — with every storage call of the documented flows
applied — leaves book 1 with status `"available"` while an active
circulation record (the `action="return"` record, which
`MemStorage.createCirculationRecord` stores with status `"active"`) still
references book 1.  So "status issued iff an active record references the
book", and in particular "after return no active record references it",
fails. -/
theorem c1_return_flow_leaves_active_record :
    (mapGet 1 returnedState.books).map Book.status = some "available"
    ∧ getActiveCirculation returnedState =
        [{ id := 4, bookId := 1, memberId := 2, action := "return", date := 2000,
           dueDate := none, returnDate := none, status := "active" }] :=
  ⟨by decide, by decide⟩

/-- C2 (refuted by the code): after the three issue-flow requests are
dispatched through `registerRoutes`, the created circulation record has
action `"borrow"` and status `"active"` and the book is `"issued"`, but its
`dueDate` is still `none`: the `PUT /api/circulation/:id` request that was
meant to persist `now + 14 days` matches no registered route, and such a
request always leaves the store untouched. -/
theorem c2_issue_flow_dueDate_not_persisted :
    mapGet 3 issuedViaRoutes.circulation = some
      { id := 3, bookId := 1, memberId := 2, action := "borrow", date := 1000,
        dueDate := none, returnDate := none, status := "active" }
    ∧ (mapGet 1 issuedViaRoutes.books).map Book.status = some "issued"
    ∧ ∀ (id : Nat) (updates : CirculationPatch) (now : Nat) (s : MemStorage),
        dispatch (ApiReq.putCirculation id updates) now s = (RouteOutcome.noRoute, s) :=
  ⟨by decide, by decide, fun _ _ _ _ => rfl⟩

/-- C3: for every store state and current time, `getOverdueCirculation`
returns exactly the circulation records with status `"active"` and a
non-null `dueDate` strictly earlier than now, and the overdue route
performs no writes: the store comes back unchanged. -/
theorem c3_getOverdueCirculation_exact_and_readonly :
    ∀ (now : Nat) (s : MemStorage) (c : Circulation),
      (c ∈ getOverdueCirculation now s ↔
        c ∈ mapValues s.circulation ∧ c.status = "active" ∧
          ∃ d, c.dueDate = some d ∧ d < now)
      ∧ (overdueRouteResult now s).2 = s := by
  intro now s c
  refine ⟨?_, rfl⟩
  have hpred : ∀ c' : Circulation,
      (c'.status == "active" &&
        (match c'.dueDate with
         | some d => decide (d < now)
         | none => false)) = true ↔
      (c'.status = "active" ∧ ∃ d, c'.dueDate = some d ∧ d < now) := by
    intro c'
    cases hd : c'.dueDate <;> simp [hd, Bool.and_eq_true, beq_iff_eq]
  constructor
  · intro h
    rcases List.mem_filter.mp h with ⟨hm, hp⟩
    exact ⟨hm, (hpred c).mp hp⟩
  · rintro ⟨hm, hp⟩
    exact List.mem_filter.mpr ⟨hm, (hpred c).mpr hp⟩

/-- C4 (refuted for `DatabaseStorage`): member `"Ali"` contains the query
`"Ali"` as a case-insensitive substring — and `MemStorage.searchMembers`
returns it — but `DatabaseStorage.searchMembers` lowercases only the
pattern and matches with case-sensitive SQL `LIKE`, so it returns
nothing. -/
theorem c4_dbSearch_like_case_sensitive :
    dbSearchMembers "Ali" [aliMember] = []
    ∧ searchMembers "Ali" aliStore = [aliMember]
    ∧ strIncl (strToLower aliMember.fullName) (strToLower "Ali") = true :=
  ⟨by decide, by decide, by decide⟩

/-- C5 (refuted by the code): `insertBookReviewSchema` checks field types
only, so `POST /api/book-reviews` with rating 6 is accepted (201) and the
review is stored with rating 6; only a non-numeric rating is rejected as a
validation error. -/
theorem c5_review_rating_out_of_range_accepted :
    postBookReviewRoute (Jv.num 1) (Jv.num 2) (Jv.num 6) (Jv.str "poor") 50 emptyStorage =
      (RouteOutcome.created,
       some { id := 1, bookId := 1, memberId := 2, rating := 6,
              review := "poor", createdAt := 50 },
       { emptyStorage with
          bookReviews := [(1, { id := 1, bookId := 1, memberId := 2, rating := 6,
                                review := "poor", createdAt := 50 })]
          currentId := 2 })
    ∧ insertBookReviewParse (Jv.num 1) (Jv.num 2) (Jv.str "five") (Jv.str "poor") = none :=
  ⟨by decide, rfl⟩

/-- C6 (refuted by the code): `MemStorage.createMember` and
`MemStorage.createCategory` perform no uniqueness check, so creating the
same payload twice yields two distinct members (ids 1 and 2) sharing
`registrationNo` `"R1"`, and two categories sharing name `"Fiction"`. -/
theorem c6_duplicate_registrationNo_and_category_name :
    (mapValues dupMembersState.members).map Member.registrationNo = ["R1", "R1"]
    ∧ (mapValues dupMembersState.members).map Member.id = [1, 2]
    ∧ (mapValues dupCategoriesState.categories).map Category.name = ["Fiction", "Fiction"] :=
  ⟨rfl, rfl, rfl⟩

/-- C7: a pair `(b, n)` is in `getMostReadBooks s` exactly when `b` is a
stored book with `n > 0` borrows (`n` its borrow count over all
`action="borrow"` records), the output is sorted by descending count, and
on three borrows of BookA and one of BookB it returns `[A:3, B:1]` in that
order. -/
theorem c7_getMostReadBooks_spec :
    (∀ (s : MemStorage) (b : Book) (n : Nat),
        ((b, n) ∈ getMostReadBooks s ↔
          ∃ bid, mapGet bid s.books = some b ∧
            n = borrowCount (fun r => r.bookId) bid (mapValues s.circulation) ∧
            0 < n))
    ∧ (∀ s : MemStorage, SortedCountDesc (getMostReadBooks s))
    ∧ (getMostReadBooks mostReadExample).map (fun p => (p.1.title, p.2)) =
        [("BookA", 3), ("BookB", 1)] := by
  refine ⟨mem_getMostReadBooks, ?_, by decide⟩
  intro s
  exact sortedCountDesc_sort _

/-- C8: `createBook` (through the insert-schema parse, which drops any
caller-supplied `status`) always returns a book with status `"available"`
whose id differs from the id of every stored entity (in any store whose
stored ids are below the counter), and the assigned ids grow strictly
across successive creations. -/
theorem c8_createBook_available_fresh_monotonic :
    ∀ (s : MemStorage) (body body2 : RawBookBody) (now now2 : Nat),
      idsBoundedB s = true →
      (createBook (insertBookParse body) now s).1.status = "available"
      ∧ (∀ p ∈ s.books, p.2.id ≠ (createBook (insertBookParse body) now s).1.id)
      ∧ (∀ p ∈ s.members, p.2.id ≠ (createBook (insertBookParse body) now s).1.id)
      ∧ (∀ p ∈ s.categories, p.2.id ≠ (createBook (insertBookParse body) now s).1.id)
      ∧ (∀ p ∈ s.bookSuggestions, p.2.id ≠ (createBook (insertBookParse body) now s).1.id)
      ∧ (∀ p ∈ s.bookReviews, p.2.id ≠ (createBook (insertBookParse body) now s).1.id)
      ∧ (∀ p ∈ s.circulation, p.2.id ≠ (createBook (insertBookParse body) now s).1.id)
      ∧ (createBook (insertBookParse body) now s).1.id <
          (createBook (insertBookParse body2) now2
            (createBook (insertBookParse body) now s).2).1.id := by
  intro s body body2 now now2 hB
  simp only [idsBoundedB, Bool.and_eq_true, List.all_eq_true, decide_eq_true_eq] at hB
  obtain ⟨⟨⟨⟨⟨h1, h2⟩, h3⟩, h4⟩, h5⟩, h6⟩ := hB
  refine ⟨rfl, ?_, ?_, ?_, ?_, ?_, ?_, ?_⟩
  · intro p hp
    exact Nat.ne_of_lt (h1 p hp)
  · intro p hp
    exact Nat.ne_of_lt (h2 p hp)
  · intro p hp
    exact Nat.ne_of_lt (h3 p hp)
  · intro p hp
    exact Nat.ne_of_lt (h4 p hp)
  · intro p hp
    exact Nat.ne_of_lt (h5 p hp)
  · intro p hp
    exact Nat.ne_of_lt (h6 p hp)
  · show s.currentId < s.currentId + 1
    exact Nat.lt_succ_self _

/-- Witness for C8 at the empty store, with a body that smuggles in
`status := "issued"`: the created book is still `"available"` and ids grow
across two creations. -/
theorem c8_createBook_witness :
    idsBoundedB emptyStorage = true
    ∧ (createBook (insertBookParse rawBookBodyEx) 0 emptyStorage).1.status = "available"
    ∧ (createBook (insertBookParse rawBookBodyEx) 0 emptyStorage).1.id <
        (createBook (insertBookParse rawBookBodyEx) 1
          (createBook (insertBookParse rawBookBodyEx) 0 emptyStorage).2).1.id := by
  have h := c8_createBook_available_fresh_monotonic emptyStorage rawBookBodyEx rawBookBodyEx 0 1
    (by decide)
  exact ⟨by decide, h.1, h.2.2.2.2.2.2.2⟩

/-- C9: updating or deleting a book under an id that is absent from the
store returns the not-found outcome (`none` / `false`) without changing
the store, and the HTTP routes map both outcomes to 404. -/
theorem c9_update_delete_unknown_id_noop :
    ∀ (s : MemStorage) (id : Nat) (updates : BookPatch),
      mapGet id s.books = none →
      updateBook id updates s = (none, s)
      ∧ deleteBook id s = (false, s)
      ∧ putBookRoute id updates s = (RouteOutcome.notFound, s)
      ∧ deleteBookRoute id s = (RouteOutcome.notFound, s) := by
  intro s id updates h
  have hupd : updateBook id updates s = (none, s) := by
    unfold updateBook
    rw [h]
  have hdel : deleteBook id s = (false, s) := by
    unfold deleteBook
    rw [h, mapDel_of_none h]
    rfl
  refine ⟨hupd, hdel, ?_, ?_⟩
  · unfold putBookRoute
    rw [hupd]
  · unfold deleteBookRoute
    rw [hdel]

/-- Witness for C9: id 1 is absent from the empty store; update, delete and
both routes answer not-found and leave the store unchanged. -/
theorem c9_update_delete_witness :
    mapGet 1 emptyStorage.books = none
    ∧ (updateBook 1 {} emptyStorage = (none, emptyStorage)
       ∧ deleteBook 1 emptyStorage = (false, emptyStorage)
       ∧ putBookRoute 1 {} emptyStorage = (RouteOutcome.notFound, emptyStorage)
       ∧ deleteBookRoute 1 emptyStorage = (RouteOutcome.notFound, emptyStorage)) :=
  ⟨rfl, c9_update_delete_unknown_id_noop emptyStorage 1 {} rfl⟩

/-- C10: every row produced by `getMostReadBooks`, `getMostActiveReaders`
and `getIssuedBooks` carries entities still present in the store (for
stores whose maps key each entity under its id), so circulation records
referencing a hard-deleted book or member contribute no row; in particular
no `getMostReadBooks` row carries the id of a deleted book. -/
theorem c10_analytics_skip_dangling_references :
    ∀ s : MemStorage, booksWFB s = true → membersWFB s = true →
      (∀ p ∈ getMostReadBooks s, mapGet p.1.id s.books = some p.1)
      ∧ (∀ p ∈ getMostActiveReaders s, mapGet p.1.id s.members = some p.1)
      ∧ (∀ (b : Book) (m : Member) (d : Option Nat),
          (b, m, d) ∈ getIssuedBooks s →
          mapGet b.id s.books = some b ∧ mapGet m.id s.members = some m)
      ∧ (∀ bid, mapGet bid s.books = none →
          ∀ p ∈ getMostReadBooks s, p.1.id ≠ bid) := by
  intro s hwb hwm
  have hwb' : ∀ k b, mapGet k s.books = some b → b.id = k := by
    intro k b h
    have hmem := mapGet_mem h
    have hbeq := List.all_eq_true.mp hwb (k, b) hmem
    exact beq_iff_eq.mp hbeq
  have hwm' : ∀ k m, mapGet k s.members = some m → m.id = k := by
    intro k m h
    have hmem := mapGet_mem h
    have hbeq := List.all_eq_true.mp hwm (k, m) hmem
    exact beq_iff_eq.mp hbeq
  refine ⟨?_, ?_, ?_, ?_⟩
  · rintro ⟨b, n⟩ hp
    obtain ⟨bid, hb, -, -⟩ := (mem_getMostReadBooks s b n).mp hp
    have hid : b.id = bid := hwb' bid b hb
    show mapGet b.id s.books = some b
    rw [hid]
    exact hb
  · rintro ⟨m, n⟩ hp
    obtain ⟨mid, hm, -, -⟩ := (mem_getMostActiveReaders s m n).mp hp
    have hid : m.id = mid := hwm' mid m hm
    show mapGet m.id s.members = some m
    rw [hid]
    exact hm
  · intro b m d hmem
    obtain ⟨c, -, hb, hm, -⟩ := (mem_getIssuedBooks s b m d).mp hmem
    constructor
    · rw [hwb' _ _ hb]
      exact hb
    · rw [hwm' _ _ hm]
      exact hm
  · intro bid hnone
    rintro ⟨b, n⟩ hp heq
    obtain ⟨bid', hb, -, -⟩ := (mem_getMostReadBooks s b n).mp hp
    have hid : b.id = bid' := hwb' bid' b hb
    have hbid : bid' = bid := by
      rw [← hid]
      exact heq
    rw [hbid, hnone] at hb
    cases hb

/-- Witness for C10 at a concrete store: the top `getMostReadBooks` row of
`mostReadExample` carries a book still present in the store. -/
theorem c10_analytics_witness :
    mapGet bookAEx.id mostReadExample.books = some bookAEx :=
  (c10_analytics_skip_dangling_references mostReadExample (by decide) (by decide)).1
    (bookAEx, 3) (by decide)
